import Mathlib

/-!
Verification of the rfkill client library (package `rfkill`).

The Go source is shallowly embedded: machine integers become `Nat` with
explicit bounds where needed, the byte stream read from `/dev/rfkill`
becomes a `List Nat` of byte values, the background decode loop becomes a
pure recursive function over that list, and the watcher's mutable fields
(`err`, the `done` channel, the file handle) become an explicit record that
`close` transforms.
-/

namespace Rfkill

/-- Operation code `OpAdd` (iota 0 in the Go source). -/
def OpAdd : Nat := 0

/-- Operation code `OpDel`. -/
def OpDel : Nat := 1

/-- Operation code `OpChange`. -/
def OpChange : Nat := 2

/-- Operation code `OpChangeAll`. -/
def OpChangeAll : Nat := 3

/-- `Op.String` from the source: a switch over the four operation codes,
returning the empty string on any other value. -/
def opString (op : Nat) : String :=
  if op = OpAdd then "add"
  else if op = OpDel then "delete"
  else if op = OpChange then "change"
  else if op = OpChangeAll then "change-all"
  else ""

/-- Switch type codes `TypeAll` through `TypeNFC` (iota 0..8). -/
def TypeAll : Nat := 0

def TypeWLAN : Nat := 1

def TypeBluetooth : Nat := 2

def TypeUWB : Nat := 3

def TypeWiMAX : Nat := 4

def TypeWWAN : Nat := 5

def TypeGPS : Nat := 6

def TypeFM : Nat := 7

def TypeNFC : Nat := 8

/-- `Type.String` from the source: a switch over the nine switch-type codes,
returning the empty string on any other value. -/
def typeString (typ : Nat) : String :=
  if typ = TypeAll then "all"
  else if typ = TypeWLAN then "wifi"
  else if typ = TypeBluetooth then "bluetooth"
  else if typ = TypeUWB then "uwb"
  else if typ = TypeWiMAX then "wimax"
  else if typ = TypeWWAN then "wwan"
  else if typ = TypeGPS then "gps"
  else if typ = TypeFM then "fm"
  else if typ = TypeNFC then "nfc"
  else ""

/-- `Event` from the source: `Idx uint32`, then the four byte fields
`Type`, `Op`, `Soft`, `Hard` (the Go field `Type` is spelled `Typ` here
because `Type` is reserved in Lean). -/
structure Event where
  Idx : Nat
  Typ : Nat
  Op : Nat
  Soft : Nat
  Hard : Nat
deriving DecidableEq, Repr

/-- Little-endian byte serialisation of a `uint32`. -/
def u32le (n : Nat) : List Nat :=
  [n % 256, n / 256 % 256, n / 65536 % 256, n / 16777216 % 256]

/-- Big-endian byte serialisation of a `uint32`. -/
def u32be (n : Nat) : List Nat :=
  [n / 16777216 % 256, n / 65536 % 256, n / 256 % 256, n % 256]

/-- Serialise a `uint32` in the process's native byte order
(`endianness` in the source is detected at init; here it is the
parameter `bigE`). -/
def putU32 (bigE : Bool) (n : Nat) : List Nat :=
  if bigE then u32be n else u32le n

/-- Read back a `uint32` from four bytes in the given byte order. -/
def getU32 (bigE : Bool) (b0 b1 b2 b3 : Nat) : Nat :=
  if bigE then ((b0 * 256 + b1) * 256 + b2) * 256 + b3
  else ((b3 * 256 + b2) * 256 + b1) * 256 + b0

/-- `binary.Write(f, endianness, &Event{...})`: the 8-byte wire form of an
event, fields in declaration order, `Idx` in native byte order. No field
is validated or altered. -/
def encode (bigE : Bool) (e : Event) : List Nat :=
  putU32 bigE e.Idx ++ [e.Typ, e.Op, e.Soft, e.Hard]

/-- `binary.Read(w.file, endianness, &ev)`: consume 8 bytes from the front
of the stream and fill the event's fields; `none` when fewer than 8 bytes
are available. No field is validated or altered. -/
def decode (bigE : Bool) : List Nat → Option Event
  | b0 :: b1 :: b2 :: b3 :: b4 :: b5 :: b6 :: b7 :: _ =>
      some ⟨getU32 bigE b0 b1 b2 b3, b4, b5, b6, b7⟩
  | _ => none

/-- Errors a watcher can record or return. `eof` is Go's io.EOF (a read
finding zero bytes), `malformed` is io.ErrUnexpectedEOF (a read finding
at least one but fewer than eight bytes — the spec's MalformedRecord),
`closed` is the ErrClosed sentinel, and `ioErr n` stands for any other
distinct OS-level I/O error. -/
inductive RError
  | eof
  | malformed
  | closed
  | ioErr (code : Nat)
deriving DecidableEq, Repr

/-- The mutable fields of `Watcher` that `close` touches: the recorded
terminal error `err` (Go `nil` is `none`), whether the `done` channel has
been closed, and whether the file handle has been closed. -/
structure Watcher where
  err : Option RError
  doneClosed : Bool
  fileClosed : Bool
deriving DecidableEq, Repr

/-- The watcher as `Watch` creates it: no error, `done` open, file open. -/
def newWatcher : Watcher :=
  { err := none, doneClosed := false, fileClosed := false }

/-- Outcome of one call to the private `close(err)`: the watcher state
after the call, the call's return value, and whether this call closed the
file handle. -/
structure CloseOut where
  w : Watcher
  ret : Option RError
  closedFileNow : Bool
deriving DecidableEq, Repr

/-- The private `close(err)` from the source: if the `done` channel is
already closed it returns nil at once, touching nothing; otherwise it
records `err`, expires the read deadline, closes `done`, closes the file
handle and returns the handle's close result. -/
def Watcher.closeWith (w : Watcher) (e : RError) : CloseOut :=
  if w.doneClosed then ⟨w, none, false⟩
  else ⟨{ err := some e, doneClosed := true, fileClosed := true },
        if w.fileClosed then some (RError.ioErr 0) else none, true⟩

/-- The public `Close` from the source: `close(ErrClosed)`. -/
def Watcher.Close (w : Watcher) : CloseOut :=
  w.closeWith RError.closed

/-- All full 8-byte records at the front of the stream, decoded in order;
a trailing partial record or the stream end stops the list. -/
def decodeAll (bigE : Bool) : List Nat → List Event
  | b0 :: b1 :: b2 :: b3 :: b4 :: b5 :: b6 :: b7 :: rest =>
      Event.mk (getU32 bigE b0 b1 b2 b3) b4 b5 b6 b7 :: decodeAll bigE rest
  | _ => []

/-- The body of `Watcher.watch` run to stream end with no concurrent
close: repeatedly `binary.Read` one event; a read finding no bytes fails
with io.EOF, a read finding fewer than eight fails with
io.ErrUnexpectedEOF, and either error stops the loop; a decoded event is
dropped when `ops` is non-empty and does not contain its `Op`, otherwise
it is published. Returns the published events in order and the error that
stopped the loop. -/
def watchRun (bigE : Bool) (ops : List Nat) : List Nat → List Event × RError
  | b0 :: b1 :: b2 :: b3 :: b4 :: b5 :: b6 :: b7 :: rest =>
      let ev : Event := Event.mk (getU32 bigE b0 b1 b2 b3) b4 b5 b6 b7
      let r := watchRun bigE ops rest
      if ops.length != 0 && !(ops.contains ev.Op) then r
      else (ev :: r.1, r.2)
  | [] => ([], RError.eof)
  | _ => ([], RError.malformed)

/-- A whole watch session over a finite stream: the loop runs to its end,
calls `close` with the error that stopped it, and the deferred
`close(w.evch)` ends the event stream. Returns the published events and
the final watcher state. -/
def runWatch (bigE : Bool) (ops : List Nat) (bytes : List Nat) (w : Watcher) :
    List Event × Watcher :=
  let r := watchRun bigE ops bytes
  (r.1, (w.closeWith r.2).w)

/-- The event `BlockByIdx` constructs: the given index, operation
`OpChange`, `Soft` 1 when blocking and 0 otherwise, `Type` and `Hard`
left at their zero values. -/
def blockEvent (idx : Nat) (block : Bool) : Event :=
  { Idx := idx, Typ := 0, Op := OpChange, Soft := if block then 1 else 0, Hard := 0 }

/-- The records `BlockByIdx` writes to the device on its success path: a
single `binary.Write` of the change event's 8-byte encoding. -/
def blockByIdxWrites (bigE : Bool) (idx : Nat) (block : Bool) : List (List Nat) :=
  [encode bigE (blockEvent idx block)]

/-- An OS-level failure: whether `os.IsNotExist` holds of it, plus a code
distinguishing one failure from another. -/
structure OsError where
  notExist : Bool
  code : Nat
deriving DecidableEq, Repr

/-- Errors from the package-level `open`: the device-missing sentinel
(`errors.New("rfkill: control device is missing")`), or the OS error
returned verbatim for any other open failure. -/
inductive OpenError
  | deviceMissing
  | openFailed (e : OsError)
deriving DecidableEq, Repr

/-- `open(flags)` from the source, abstracted over the outcome `res` of
`os.OpenFile`: a missing path becomes the device-missing error, any other
OS failure is returned as-is, success passes the handle through. -/
def openDev (res : Except OsError Unit) : Except OpenError Unit :=
  match res with
  | .ok u => .ok u
  | .error e =>
    if e.notExist then .error OpenError.deviceMissing
    else .error (OpenError.openFailed e)

/-- `Watch` up to its open step: an open failure is returned to the
caller, success yields a fresh watcher. -/
def WatchOpen (res : Except OsError Unit) : Except OpenError Watcher :=
  match openDev res with
  | .error e => .error e
  | .ok _ => .ok newWatcher

/-- `BlockByIdx` including its open step: an open failure is returned to
the caller, success performs the single write. -/
def blockByIdxRun (bigE : Bool) (res : Except OsError Unit) (idx : Nat)
    (block : Bool) : Except OpenError (List (List Nat)) :=
  match openDev res with
  | .error e => .error e
  | .ok _ => .ok (blockByIdxWrites bigE idx block)

/-- The sysfs path `NameByIdx` reads for a given device index. -/
def nameByIdxPath (idx : Nat) : String :=
  "/sys/class/rfkill/rfkill" ++ toString idx ++ "/name"

/-- `NameByIdx` from the source, abstracted over the filesystem `fs`
standing for `ioutil.ReadFile`: a read failure is returned to the caller,
success returns the raw contents converted to a string. -/
def NameByIdx (fs : String → Except OsError String) (idx : Nat) :
    Except OsError String :=
  match fs (nameByIdxPath idx) with
  | .ok b => .ok b
  | .error e => .error e

/-- A filesystem where device 0's sysfs name file holds a name followed
by a trailing newline, as sysfs name files do. -/
def fsNewline : String → Except OsError String := fun p =>
  if p = nameByIdxPath 0 then .ok "phy0\n"
  else .error { notExist := true, code := 0 }

/-- How a run of `Each` sees the stream end: the event channel closed
(the decode loop finished, the watcher's error available through `Err`),
or the millisecond idle timer fired first. -/
inductive StreamEnd
  | chanClosed (werr : Option RError)
  | timeout
deriving DecidableEq, Repr

/-- `Each` from the source, abstracted over the events taken from the
OpAdd-filtered watcher's channel and over how the stream ends after them:
returns the value `Each` returns, the events the handler was invoked on
in order, and whether the deferred `w.Close` ran before returning (it
runs on every path). -/
def eachRun (fn : Event → Option RError) :
    List Event → StreamEnd → Option RError × List Event × Bool
  | [], StreamEnd.chanClosed werr => (werr, [], true)
  | [], StreamEnd.timeout => (none, [], true)
  | ev :: rest, tail =>
      match fn ev with
      | some e => (some e, [ev], true)
      | none =>
        let r := eachRun fn rest tail
        (r.1, ev :: r.2.1, r.2.2)

/-- A handler failing on device index 1 and succeeding elsewhere. -/
def failOn1 : Event → Option RError := fun ev =>
  if ev.Idx = 1 then some (RError.ioErr 7) else none

/-- Modelled from the spec: the "trimmed contents" the spec says the name
lookup returns — the contents with leading and trailing whitespace
characters removed. The source has no such step; this definition exists
to compare against what the source returns. -/
def trimSpec (s : String) : String :=
  let ws : List Char := [' ', '\t', '\n', '\r']
  let chars := (s.data.dropWhile (fun c => ws.contains c)).reverse
  ((chars.dropWhile (fun c => ws.contains c)).reverse).asString

end Rfkill

namespace Rfkill

/-- Round-trip of the codec for any event whose index fits in 32 bits;
no other field is constrained because neither direction validates them. -/
theorem decode_encode_eq (bigE : Bool) (e : Event) (h : e.Idx < 4294967296) :
    decode bigE (encode bigE e) = some e := by
  cases e with
  | mk idx typ op soft hard =>
    simp only [Event.Idx] at h
    cases bigE <;> simp [encode, decode, putU32, u32le, u32be, getU32] <;> omega

/-- Claim C2: for every event `e` — including kind and operation bytes
outside the enumerated range, since neither direction of the codec
validates them — decoding the 8-byte encoding of `e` under the same
native byte order returns `e` itself. The only hypothesis is that `Idx`
fits in 32 bits, which the Go type `uint32` guarantees. -/
theorem decode_encode_roundtrip (bigE : Bool) (e : Event)
    (h : e.Idx < 4294967296) :
    decode bigE (encode bigE e) = some e :=
  decode_encode_eq bigE e h

/-- Witness for C2 at a concrete event whose kind byte (200) and operation
byte (77) lie outside the enumerated ranges. -/
theorem decode_encode_roundtrip_witness :
    (Event.mk 305419896 200 77 1 0).Idx < 4294967296 ∧
      decode true (encode true (Event.mk 305419896 200 77 1 0)) =
        some (Event.mk 305419896 200 77 1 0) :=
  ⟨by decide, decode_encode_roundtrip true (Event.mk 305419896 200 77 1 0) (by decide)⟩

/-- Claim C4: over any finite stream, the events the loop publishes are
exactly the decoded events whose operation lies in the filter set, in
their original order; an empty filter set publishes every decoded event. -/
theorem watch_filters (bigE : Bool) (ops : List Nat) (bytes : List Nat) :
    (watchRun bigE ops bytes).1 =
      if ops.isEmpty then decodeAll bigE bytes
      else (decodeAll bigE bytes).filter (fun ev => ops.contains ev.Op) := by
  induction bytes using watchRun.induct bigE ops with
  | case1 b0 b1 b2 b3 b4 b5 b6 b7 rest ev h ih =>
    simp only [ev] at h
    simp at h
    obtain ⟨hne, hmem⟩ := h
    have hemp : ops.isEmpty = false := by
      cases ops <;> simp_all
    simp_all [watchRun, decodeAll]
  | case2 b0 b1 b2 b3 b4 b5 b6 b7 rest ev h ih =>
    simp only [ev] at h
    simp at h
    by_cases hemp : ops = []
    · subst hemp
      simp_all [watchRun, decodeAll]
    · have hmem : b5 ∈ ops := h hemp
      have hemp2 : ops.isEmpty = false := by
        cases ops <;> simp_all
      simp_all [watchRun, decodeAll]
  | case3 =>
    simp [watchRun, decodeAll]
  | case4 t h1 h2 =>
    rcases t with _ | ⟨a, _ | ⟨b, _ | ⟨c, _ | ⟨d, _ | ⟨e, _ | ⟨f, _ | ⟨g, _ | ⟨hh, tl⟩⟩⟩⟩⟩⟩⟩⟩
    · exact absurd rfl h2
    · simp [watchRun, decodeAll]
    · simp [watchRun, decodeAll]
    · simp [watchRun, decodeAll]
    · simp [watchRun, decodeAll]
    · simp [watchRun, decodeAll]
    · simp [watchRun, decodeAll]
    · simp [watchRun, decodeAll]
    · exact absurd rfl (h1 a b c d e f g hh tl)

/-- The error stopping the loop is io.EOF when the stream holds a whole
number of records and io.ErrUnexpectedEOF when a partial record trails. -/
theorem watchRun_term (bigE : Bool) (ops : List Nat) (bytes : List Nat) :
    (watchRun bigE ops bytes).2 =
      if bytes.length % 8 = 0 then RError.eof else RError.malformed := by
  induction bytes using watchRun.induct bigE ops with
  | case1 b0 b1 b2 b3 b4 b5 b6 b7 rest ev h ih =>
    have hmod : (rest.length + 1 + 1 + 1 + 1 + 1 + 1 + 1 + 1) % 8 = rest.length % 8 := by
      omega
    simp only [watchRun, h, if_true, List.length_cons, hmod]
    exact ih
  | case2 b0 b1 b2 b3 b4 b5 b6 b7 rest ev h ih =>
    have hmod : (rest.length + 1 + 1 + 1 + 1 + 1 + 1 + 1 + 1) % 8 = rest.length % 8 := by
      omega
    simp only [watchRun, List.length_cons, hmod]
    rw [if_neg h]
    exact ih
  | case3 => simp [watchRun]
  | case4 t h1 h2 =>
    rcases t with _ | ⟨a, _ | ⟨b, _ | ⟨c, _ | ⟨d, _ | ⟨e, _ | ⟨f, _ | ⟨g, _ | ⟨hh, tl⟩⟩⟩⟩⟩⟩⟩⟩
    · exact absurd rfl h2
    · simp [watchRun]
    · simp [watchRun]
    · simp [watchRun]
    · simp [watchRun]
    · simp [watchRun]
    · simp [watchRun]
    · simp [watchRun]
    · exact absurd rfl (h1 a b c d e f g hh tl)

/-- Claim C6 (counterexample): a read finding zero bytes also finds fewer
than the eight bytes of a full record, yet the loop stops with io.EOF, not
MalformedRecord, and io.EOF is what the watcher records and `Err` reports. -/
theorem zero_byte_read_eof :
    (watchRun false [] []).2 = RError.eof ∧
      (runWatch false [] [] newWatcher).2.err = some RError.eof ∧
      RError.eof ≠ RError.malformed := by
  decide

/-- Claim C6 (amended): a read that finds at least one but fewer than
eight bytes — the stream does not hold a whole number of records — and is
not induced by a close request fails with MalformedRecord; the loop stops,
records it as the watcher's terminal error, and `Err` reports it after the
stream ends. -/
theorem short_read_malformed (bigE : Bool) (ops : List Nat) (bytes : List Nat)
    (w : Watcher) (hw : w.doneClosed = false) (h : bytes.length % 8 ≠ 0) :
    (watchRun bigE ops bytes).2 = RError.malformed ∧
      (runWatch bigE ops bytes w).2.err = some RError.malformed := by
  have ht := watchRun_term bigE ops bytes
  rw [if_neg h] at ht
  refine ⟨ht, ?_⟩
  simp [runWatch, Watcher.closeWith, hw, ht]

/-- Witness for the amended C6: a fresh watcher over a 3-byte stream. -/
theorem short_read_malformed_witness :
    newWatcher.doneClosed = false ∧ ([5, 6, 7] : List Nat).length % 8 ≠ 0 ∧
      (watchRun false [] [5, 6, 7]).2 = RError.malformed ∧
      (runWatch false [] [5, 6, 7] newWatcher).2.err = some RError.malformed :=
  ⟨by decide, by decide,
    short_read_malformed false [] [5, 6, 7] newWatcher (by decide) (by decide)⟩

/-- Claim C1 (counterexample): a fresh watcher closed explicitly by
`Close`, with no earlier loop error, has `err` set to the ErrClosed
sentinel, so `Err` returns that error and not nil. -/
theorem close_err_not_nil :
    (Watcher.Close newWatcher).w.err = some RError.closed ∧
      (Watcher.Close newWatcher).w.err ≠ none := by
  decide

/-- Claim C1 (amended): after an explicit `Close` of a watcher not yet
terminated by an earlier loop error (its `done` channel still open), `Err`
returns the ErrClosed sentinel as the terminal condition, not nil. -/
theorem close_reports_closed (w : Watcher) (h : w.doneClosed = false) :
    (Watcher.Close w).w.err = some RError.closed := by
  simp [Watcher.Close, Watcher.closeWith, h]

/-- Witness for the amended C1 at the fresh watcher. -/
theorem close_reports_closed_witness :
    newWatcher.doneClosed = false ∧
      (Watcher.Close newWatcher).w.err = some RError.closed :=
  ⟨by decide, close_reports_closed newWatcher (by decide)⟩

/-- Claim C5: once the `done` channel is closed — by an earlier `Close` or
by the decode loop terminating through `close(err)` — a further `Close`
returns nil, leaves the watcher state (its recorded terminal error
included) unchanged, and does not close the file handle again. -/
theorem second_close_noop (w : Watcher) (h : w.doneClosed = true) :
    Watcher.Close w = ⟨w, none, false⟩ := by
  simp [Watcher.Close, Watcher.closeWith, h]

/-- Witness for C5: a second `Close` right after a first one. -/
theorem second_close_noop_witness :
    (Watcher.Close newWatcher).w.doneClosed = true ∧
      Watcher.Close (Watcher.Close newWatcher).w =
        ⟨(Watcher.Close newWatcher).w, none, false⟩ :=
  ⟨by decide, second_close_noop (Watcher.Close newWatcher).w (by decide)⟩

/-- Claim C3: a successful `BlockByIdx idx block` writes exactly one
8-byte record, and that record decodes to the event with `Idx = idx`,
`Op = OpChange`, `Soft` 1 when blocking and 0 otherwise, and `Type` and
`Hard` zero. The hypothesis is the `uint32` bound on `idx`. -/
theorem blockByIdx_writes_change (bigE : Bool) (idx : Nat) (block : Bool)
    (h : idx < 4294967296) :
    (blockByIdxWrites bigE idx block).length = 1 ∧
      ∀ r ∈ blockByIdxWrites bigE idx block,
        r.length = 8 ∧
          decode bigE r =
            some { Idx := idx, Typ := 0, Op := OpChange,
                   Soft := if block then 1 else 0, Hard := 0 } := by
  refine ⟨rfl, ?_⟩
  intro r hr
  simp only [blockByIdxWrites, List.mem_singleton] at hr
  subst hr
  refine ⟨?_, ?_⟩
  · cases bigE <;> simp [encode, putU32, u32le, u32be]
  · exact decode_encode_eq bigE (blockEvent idx block) (by simpa [blockEvent] using h)

/-- Witness for C3 at index 3, blocking, little-endian. -/
theorem blockByIdx_writes_change_witness :
    3 < 4294967296 ∧
      ((blockByIdxWrites false 3 true).length = 1 ∧
        ∀ r ∈ blockByIdxWrites false 3 true,
          r.length = 8 ∧
            decode false r =
              some { Idx := 3, Typ := 0, Op := OpChange,
                     Soft := if true then 1 else 0, Hard := 0 }) :=
  ⟨by decide, blockByIdx_writes_change false 3 true (by decide)⟩

/-- Claim C7: with the control device path missing (`os.IsNotExist`),
both `Watch` and `BlockByIdx` fail with the device-missing error; any
other OS-level open failure is surfaced as the distinct generic open
failure carrying the OS error, never as device-missing. -/
theorem open_error_classified (bigE : Bool) (idx : Nat) (block : Bool)
    (e : OsError) :
    WatchOpen (Except.error e) =
        Except.error
          (if e.notExist then OpenError.deviceMissing else OpenError.openFailed e) ∧
      blockByIdxRun bigE (Except.error e) idx block =
        Except.error
          (if e.notExist then OpenError.deviceMissing else OpenError.openFailed e) ∧
      OpenError.openFailed e ≠ OpenError.deviceMissing := by
  cases he : e.notExist <;> simp [WatchOpen, blockByIdxRun, openDev, he]

/-- Claim C8 (counterexample): `NameByIdx` returns the file's contents
verbatim — with the sysfs trailing newline — not the trimmed contents the
claim describes. -/
theorem nameByIdx_not_trimmed :
    NameByIdx fsNewline 0 = Except.ok "phy0\n" ∧
      trimSpec "phy0\n" = "phy0" ∧ ("phy0\n" : String) ≠ "phy0" := by
  refine ⟨rfl, by decide, by decide⟩

/-- Claim C8 (amended): `NameByIdx idx` reads the file at
`/sys/class/rfkill/rfkill<idx>/name` and returns its contents unchanged
(no trimming); a read failure propagates to the caller unchanged. -/
theorem nameByIdx_propagates (fs : String → Except OsError String) (idx : Nat) :
    (∀ s, fs (nameByIdxPath idx) = Except.ok s → NameByIdx fs idx = Except.ok s) ∧
      ∀ e, fs (nameByIdxPath idx) = Except.error e →
        NameByIdx fs idx = Except.error e := by
  constructor <;> intro x hx <;> simp [NameByIdx, hx]

/-- Witness for the amended C8 on the newline filesystem. -/
theorem nameByIdx_propagates_witness :
    fsNewline (nameByIdxPath 0) = Except.ok "phy0\n" ∧
      NameByIdx fsNewline 0 = Except.ok "phy0\n" :=
  ⟨rfl, (nameByIdx_propagates fsNewline 0).1 "phy0\n" rfl⟩

/-- Claim C9: when the handler returns an error on some event, `Each`
stops right there: the handler ran on exactly the events up to and
including the failing one, the same error is returned, and the deferred
`w.Close` still ran before returning. -/
theorem each_handler_error (fn : Event → Option RError) (pre : List Event)
    (ev : Event) (post : List Event) (tail : StreamEnd) (e : RError)
    (hpre : ∀ x ∈ pre, fn x = none) (hev : fn ev = some e) :
    eachRun fn (pre ++ ev :: post) tail = (some e, pre ++ [ev], true) := by
  induction pre with
  | nil => simp [eachRun, hev]
  | cons a as ih =>
    have ha : fn a = none := hpre a (by simp)
    have hrec := ih (fun x hx => hpre x (by simp [hx]))
    simp [eachRun, ha, hrec]

/-- Witness for C9: the handler fails on the second of three events. -/
theorem each_handler_error_witness :
    (∀ x ∈ [Event.mk 0 0 0 0 0], failOn1 x = none) ∧
      failOn1 (Event.mk 1 0 0 0 0) = some (RError.ioErr 7) ∧
      eachRun failOn1
          [Event.mk 0 0 0 0 0, Event.mk 1 0 0 0 0, Event.mk 2 0 0 0 0]
          (StreamEnd.chanClosed none) =
        (some (RError.ioErr 7), [Event.mk 0 0 0 0 0, Event.mk 1 0 0 0 0], true) :=
  ⟨by decide, by decide,
    each_handler_error failOn1 [Event.mk 0 0 0 0 0] (Event.mk 1 0 0 0 0)
      [Event.mk 2 0 0 0 0] (StreamEnd.chanClosed none) (RError.ioErr 7)
      (by decide) (by decide)⟩

/-- Claim C10: the String methods are total switches — each enumerated
operation and switch-type code maps to its fixed name, and every value
outside the enumerated range maps to the empty string. -/
theorem string_methods_total (b t : Nat) (hb : 3 < b) (ht : 8 < t) :
    opString OpAdd = "add" ∧ opString OpDel = "delete" ∧
      opString OpChange = "change" ∧ opString OpChangeAll = "change-all" ∧
      opString b = "" ∧
      typeString TypeAll = "all" ∧ typeString TypeWLAN = "wifi" ∧
      typeString TypeBluetooth = "bluetooth" ∧ typeString TypeUWB = "uwb" ∧
      typeString TypeWiMAX = "wimax" ∧ typeString TypeWWAN = "wwan" ∧
      typeString TypeGPS = "gps" ∧ typeString TypeFM = "fm" ∧
      typeString TypeNFC = "nfc" ∧ typeString t = "" := by
  refine ⟨rfl, rfl, rfl, rfl, ?_, rfl, rfl, rfl, rfl, rfl, rfl, rfl, rfl, rfl, ?_⟩
  · simp only [opString, OpAdd, OpDel, OpChange, OpChangeAll]
    split_ifs <;> first | rfl | omega
  · simp only [typeString, TypeAll, TypeWLAN, TypeBluetooth, TypeUWB, TypeWiMAX,
      TypeWWAN, TypeGPS, TypeFM, TypeNFC]
    split_ifs <;> first | rfl | omega

/-- Witness for C10 at the first out-of-range values 4 and 9. -/
theorem string_methods_total_witness :
    3 < 4 ∧ 8 < 9 ∧
      (opString OpAdd = "add" ∧ opString OpDel = "delete" ∧
        opString OpChange = "change" ∧ opString OpChangeAll = "change-all" ∧
        opString 4 = "" ∧
        typeString TypeAll = "all" ∧ typeString TypeWLAN = "wifi" ∧
        typeString TypeBluetooth = "bluetooth" ∧ typeString TypeUWB = "uwb" ∧
        typeString TypeWiMAX = "wimax" ∧ typeString TypeWWAN = "wwan" ∧
        typeString TypeGPS = "gps" ∧ typeString TypeFM = "fm" ∧
        typeString TypeNFC = "nfc" ∧ typeString 9 = "") :=
  ⟨by decide, by decide, string_methods_total 4 9 (by decide) (by decide)⟩

end Rfkill
